import Mathlib

/-!
Shallow embedding of the batch document-to-text converter
(src/core/batch_processor.py, src/converters/base.py,
src/converters/factory.py, src/converters/mobi_converter.py,
src/config/settings.py).

Modelling conventions:
* Python strings are Lean `String`; paths are plain strings with the
  POSIX separator.
* The filesystem is an explicit state `FS`: an association list of
  regular files (path, contents) plus a list of directories.  Writes
  and mkdir cons onto these lists, so existence is monotone, matching
  the fact that the program never deletes files.
* Exceptions (Python `Exception` instances) are reified as `PyExn`
  values; a fallible call returns `PyResult`.
* The external parsing libraries (PyPDF2, python-docx, mobi, ...) are
  oracles: a `TaskEnv` records, for one task, the outcome of the
  per-format text extraction, of the output write, and of the output
  parent `mkdir`.
* `ThreadPoolExecutor` + `as_completed` delivers the per-task results
  in completion order, a permutation of submission order; the batch is
  embedded as one linearisation (submission order).  Every claim below
  is insensitive to the permutation (counts, membership, per-task
  values).
-/

/-- A Python exception value: class name and message. -/
structure PyExn where
  name : String
  msg : String
deriving DecidableEq, Repr

/-- The message the source formats as f-string name: msg
(pattern used in batch_processor.py line 140 and base.py line 118). -/
def excMessage (e : PyExn) : String :=
  e.name ++ ": " ++ e.msg

/-- Outcome of a call that may raise. -/
inductive PyResult (α : Type) where
  | ok (a : α)
  | exn (e : PyExn)
deriving DecidableEq, Repr

/-- Filesystem state: regular files (path, contents) and directories. -/
structure FS where
  files : List (String × String)
  dirs : List String
deriving DecidableEq, Repr

/-- Path exists and is a regular file (Python path.exists() and path.is_file()). -/
def fsFileExists (fs : FS) (p : String) : Bool :=
  fs.files.any (fun x => x.1 == p)

/-- Path exists, as a file or as a directory (Python path.exists()). -/
def fsExists (fs : FS) (p : String) : Bool :=
  fsFileExists fs p || fs.dirs.contains p

/-! ### Path arithmetic (pathlib semantics, hand-rolled so the kernel can evaluate it) -/

/-- Split a character list on a separator character. -/
def splitOnChar (sep : Char) : List Char → List (List Char)
  | [] => [[]]
  | c :: cs =>
    let r := splitOnChar sep cs
    if c = sep then [] :: r
    else
      match r with
      | [] => [[c]]
      | y :: ys => (c :: y) :: ys

/-- Path components after pathlib parsing: separator-split, dropping
empty components and single dots. -/
def pathParts (p : String) : List String :=
  ((splitOnChar '/' p.toList).map (fun cs => String.mk cs)).filter
    (fun s => decide (s ≠ "" ∧ s ≠ "."))

/-- pathlib Path.name: the final path component, or the empty string. -/
def pathName (p : String) : String :=
  (pathParts p).getLast?.getD ""

/-- Join path components with the separator. -/
def joinParts : List String → String
  | [] => ""
  | [x] => x
  | x :: xs => x ++ "/" ++ joinParts xs

/-- pathlib Path.parent of a path, as a plain join of all but the last component. -/
def parentDir (p : String) : String :=
  joinParts (pathParts p).dropLast

/-- Index of the last occurrence of a character, if any. -/
def lastIdxOf (c : Char) : List Char → Option Nat
  | [] => none
  | x :: xs =>
    match lastIdxOf c xs with
    | some i => some (i + 1)
    | none => if x = c then some 0 else none

/-- pathlib Path.suffix: name[i:] where i is the last dot of the final
component, provided 0 < i < len(name) - 1; otherwise the empty string. -/
def pathSuffix (p : String) : String :=
  let nm := pathName p
  match lastIdxOf '.' nm.toList with
  | none => ""
  | some i =>
    if 0 < i ∧ i < nm.length - 1 then String.mk (nm.toList.drop i) else ""

/-- Python str.lower restricted to ASCII, as used on extensions. -/
def strLower (s : String) : String :=
  String.mk (s.toList.map Char.toLower)

/-- pathlib with_suffix for the fixed new suffix .txt: drop the old
suffix from the end of the path and append .txt. -/
def withSuffixTxt (p : String) : String :=
  String.mk (p.toList.take (p.toList.length - (pathSuffix p).toList.length)) ++ ".txt"

/-! ### ConverterFactory (src/converters/factory.py) -/

/-- The eight converter classes registered in the factory. -/
inductive ConverterKind where
  | pdf | docx | xlsx | pptx | html | markdown | epub | mobi
deriving DecidableEq, Repr

/-- CONVERTER_MAP from factory.py lines 21-32. -/
def CONVERTER_MAP : List (String × ConverterKind) :=
  [ (".pdf", ConverterKind.pdf),
    (".docx", ConverterKind.docx),
    (".xlsx", ConverterKind.xlsx),
    (".pptx", ConverterKind.pptx),
    (".html", ConverterKind.html),
    (".htm", ConverterKind.html),
    (".md", ConverterKind.markdown),
    (".markdown", ConverterKind.markdown),
    (".epub", ConverterKind.epub),
    (".mobi", ConverterKind.mobi) ]

/-- ConverterFactory.get_converter: lowercased suffix lookup; None when absent. -/
def get_converter (file_path : String) : Option ConverterKind :=
  CONVERTER_MAP.lookup (strLower (pathSuffix file_path))

/-- ConverterFactory.is_supported: the lowercased suffix is a key of the map. -/
def is_supported (file_path : String) : Bool :=
  (get_converter file_path).isSome

/-! ### BaseConverter (src/converters/base.py) -/

/-- BaseConverter._validate_input: the input path exists and is a regular file. -/
def validate_input (fs : FS) (input_path : String) : Bool :=
  fsFileExists fs input_path

/-- Create the parent directory of a path, parents included, exist_ok
(Path(...).parent.mkdir(parents=True, exist_ok=True)); modelled as
recording the parent directory. -/
def mkdirParent (out : String) (fs : FS) : FS :=
  ⟨fs.files, parentDir out :: fs.dirs⟩

/-- BaseConverter._write_output on a successful write: parent mkdir,
then the file is created or replaced with the given text. -/
def fsWrite (fs : FS) (out text : String) : FS :=
  ⟨(out, text) :: fs.files, parentDir out :: fs.dirs⟩

/-- Behaviour of a converter convert(input, output) call on a
filesystem: a boolean outcome or a raised exception, plus the
filesystem it leaves behind. -/
def ConvFun : Type :=
  String → String → FS → PyResult Bool × FS

/-- The convert body shared verbatim by every converter class in
src/converters (pdf, docx, xlsx, pptx, html, markdown, epub, mobi):
extract text inside try/except (an exception is logged and convert
returns False); on non-empty text delegate to _write_output, whose own
try/except turns a write failure into False; empty text returns False.
The per-format extraction outcome and the write outcome are oracles. -/
def converter_convert (extractResult : PyResult String) (writeOk : Bool) : ConvFun :=
  fun _ output fs =>
    match extractResult with
    | PyResult.exn _ => (PyResult.ok false, fs)
    | PyResult.ok text =>
      if text = "" then (PyResult.ok false, fs)
      else if writeOk then (PyResult.ok true, fsWrite fs output text)
      else (PyResult.ok false, fs)

/-- BaseConverter.safe_convert (base.py lines 96-120), generic over the
behaviour of self.convert: validates the input, classifies the convert
outcome, and catches any exception convert raises, returning it as
(False, "ExcName: message"). -/
def safe_convert (conv : ConvFun) (input_path output_path : String) (fs : FS) :
    (Bool × Option String) × FS :=
  if validate_input fs input_path = false then
    ((false, some "Invalid input file"), fs)
  else
    match conv input_path output_path fs with
    | (PyResult.ok true, fs2) => ((true, none), fs2)
    | (PyResult.ok false, fs2) => ((false, some "Conversion failed"), fs2)
    | (PyResult.exn e, fs2) => ((false, some (excMessage e)), fs2)

/-! ### BatchProcessor (src/core/batch_processor.py) -/

/-- A discovered (input_path, output_path) pair. -/
abbrev DocTask : Type := String × String

/-- ConversionResult (batch_processor.py lines 15-26). -/
structure ConversionResult where
  input_path : String
  output_path : String
  success : Bool
  error : Option String := none
deriving DecidableEq, Repr

/-- External behaviour visible to one task: outcome of the output
parent mkdir in _convert_single, of the per-format text extraction,
and of the output write. -/
structure TaskEnv where
  mkdirOutcome : PyResult Unit
  extract : PyResult String
  writeOk : Bool
deriving DecidableEq, Repr

/-- BatchProcessor configuration fields used by discovery and conversion. -/
structure BPConfig where
  input_folder : String
  output_folder : String
  preserve_structure : Bool
  skip_on_error : Bool
  overwrite_existing : Bool
deriving DecidableEq, Repr

/-- Effective worker-pool size set in BatchProcessor.__init__ line 56:
min(batch_size, 10), a one-sided cap. -/
def batch_processor_batch_size (batch_size : Int) : Int :=
  min batch_size 10

/-- Config._validate_config (settings.py lines 46-54): raises ValueError
when batch_size is outside [1,50] or max_memory_gb is below 1. -/
def validate_config (batch_size : Int) (max_memory_gb : Rat) : Except String Unit :=
  if batch_size < 1 ∨ batch_size > 50 then
    Except.error "batch_size must be between 1 and 50"
  else if max_memory_gb < 1 then
    Except.error "max_memory_gb must be at least 1"
  else
    Except.ok ()

/-- Log events emitted through the doc_converter logger. -/
inductive LogEvent where
  | error (msg : String)
  | warning (msg : String)
  | info (msg : String)
deriving DecidableEq, Repr

/-- Absolute input path of a walked file: Path(root) / filename, with
rel the path of the file relative to the input folder. -/
def mkInputPath (cfg : BPConfig) (rel : String) : String :=
  cfg.input_folder ++ "/" ++ rel

/-- Output path of a walked file: output_folder / relative_path.with_suffix txt. -/
def mkOutputPath (cfg : BPConfig) (rel : String) : String :=
  cfg.output_folder ++ "/" ++ withSuffixTxt rel

/-- The file loop of BatchProcessor.discover_documents (lines 81-98)
over the os.walk file sequence, given as the list of paths relative to
the input folder: unsupported extensions are skipped; an output that
already exists is skipped with an info log unless overwrite_existing. -/
def discoverLoop (cfg : BPConfig) (fs : FS) : List String → List DocTask × List LogEvent
  | [] => ([], [])
  | rel :: rest =>
    let input_path := mkInputPath cfg rel
    if is_supported input_path = false then
      discoverLoop cfg fs rest
    else
      let output_path := mkOutputPath cfg rel
      if fsExists fs output_path = true ∧ cfg.overwrite_existing = false then
        let r := discoverLoop cfg fs rest
        (r.1, LogEvent.info ("Skipping existing file: " ++ output_path) :: r.2)
      else
        let r := discoverLoop cfg fs rest
        ((input_path, output_path) :: r.1, r.2)

/-- BatchProcessor.discover_documents (lines 67-101).  inputExists is
self.input_folder.exists(); walk is the os.walk file sequence relative
to the input folder.  A missing input root logs an error and returns
the empty list at once. -/
def discover_documents (cfg : BPConfig) (inputExists : Bool) (walk : List String)
    (fs : FS) : List DocTask × List LogEvent :=
  if inputExists = false then
    ([], [LogEvent.error ("Input folder does not exist: " ++ cfg.input_folder)])
  else
    let r := discoverLoop cfg fs walk
    (r.1, r.2 ++ [LogEvent.info ("Discovered " ++ toString r.1.length ++ " documents to convert")])

/-- BatchProcessor._convert_single (lines 103-142): factory lookup, the
no-converter failure result, output parent mkdir, safe_convert, and the
outer try/except that turns any escaped exception into a failed result. -/
def convert_single (env : TaskEnv) (input_path output_path : String) (fs : FS) :
    ConversionResult × FS :=
  match get_converter input_path with
  | none =>
    (⟨input_path, output_path, false, some ("No converter found for " ++ input_path)⟩, fs)
  | some _ =>
    match env.mkdirOutcome with
    | PyResult.exn e =>
      (⟨input_path, output_path, false, some (excMessage e)⟩, fs)
    | PyResult.ok _ =>
      let fs1 := mkdirParent output_path fs
      match safe_convert (converter_convert env.extract env.writeOk) input_path output_path fs1 with
      | ((true, _), fs2) => (⟨input_path, output_path, true, none⟩, fs2)
      | ((false, err), fs2) => (⟨input_path, output_path, false, err⟩, fs2)

/-- BatchProcessor.process_batch (lines 144-188): every submitted task
is converted and contributes exactly one ConversionResult.  The thread
pool returns results in completion order, a permutation of this
linearisation; the claims below are permutation-insensitive. -/
def process_batch (env : String → TaskEnv) (documents : List DocTask) (fs : FS) :
    List ConversionResult × FS :=
  match documents with
  | [] => ([], fs)
  | (inp, out) :: rest =>
    let r := convert_single (env inp) inp out fs
    let rs := process_batch env rest r.2
    (r.1 :: rs.1, rs.2)

/-- BatchProcessor.process_all (lines 190-214): discover, convert all,
partition into successful and failed. -/
def process_all (cfg : BPConfig) (inputExists : Bool) (walk : List String)
    (env : String → TaskEnv) (fs : FS) :
    (List ConversionResult × List ConversionResult) × FS :=
  let documents := (discover_documents cfg inputExists walk fs).1
  if documents.isEmpty then (([], []), fs)
  else
    let r := process_batch env documents fs
    ((r.1.filter (fun x => x.success), r.1.filter (fun x => !x.success)), r.2)

/-! ### Report generation (batch_processor.py lines 216-253) -/

/-- Sixty equals signs. -/
def eq60 : String := String.mk (List.replicate 60 '=')

/-- One-decimal percentage len(successful)/total*100, total positive.
Exact IEEE double :.1f formatting is abstracted to rounding the exact
ratio of tenths of a percent; no claim depends on the digits. -/
def pct1 (s total : Nat) : String :=
  let m := (1000 * s + total / 2) / total
  toString (m / 10) ++ "." ++ toString (m % 10)

/-- The conditional success-rate line of generate_report line 237:
the formatted rate when total is positive, otherwise the bare N/A. -/
def success_rate_line (nSucc total : Nat) : String :=
  if total > 0 then "Success rate: " ++ pct1 nSucc total ++ "%" else "N/A"

/-- Per-failure block: the input path line plus the error line when an
error message is present. -/
def failedLines (r : ConversionResult) : List String :=
  ("  ✗ " ++ r.input_path) ::
    (match r.error with
     | some e => ["    Error: " ++ e]
     | none => [])

/-- The list of report lines joined by generate_report. -/
def report_lines (successful failed : List ConversionResult) : List String :=
  let total := successful.length + failed.length
  (["\n" ++ eq60,
    "CONVERSION REPORT",
    eq60,
    "Total documents: " ++ toString total,
    "Successful: " ++ toString successful.length,
    "Failed: " ++ toString failed.length,
    success_rate_line successful.length total,
    eq60]
   ++ (if failed.isEmpty then [] else
        "\nFailed conversions:" :: failed.flatMap failedLines)
   ++ (if successful.isEmpty then [] else
        ["\nSuccessfully converted " ++ toString successful.length ++ " documents"])
   ++ [eq60 ++ "\n"])

/-- Join report lines with newlines. -/
def joinLines : List String → String
  | [] => ""
  | [x] => x
  | x :: xs => x ++ "\n" ++ joinLines xs

/-- BatchProcessor.generate_report. -/
def generate_report (successful failed : List ConversionResult) : String :=
  joinLines (report_lines successful failed)

/-! ### MOBIConverter (src/converters/mobi_converter.py) -/

/-- External behaviour seen by MOBIConverter._extract_text: outcome of
the primary pipeline (mobi.extract, reading the extracted HTML,
BeautifulSoup text assembly, lines 46-84, the missing-HTML branch
returning the empty string included), and outcome of the fallback
open/read of the raw input bytes already decoded as UTF-8 with
undecodable bytes ignored (lines 89-94). -/
structure MobiEnv where
  primary : PyResult String
  rawRead : PyResult String
deriving DecidableEq, Repr

/-- MOBIConverter._extract_text (lines 34-96): the primary text when
the pipeline does not raise; on exception the raw-byte decode; the
empty string when even that read raises. -/
def mobi_extract_text (env : MobiEnv) : String :=
  match env.primary with
  | PyResult.ok t => t
  | PyResult.exn _ =>
    match env.rawRead with
    | PyResult.ok s => s
    | PyResult.exn _ => ""

/-- MOBIConverter.convert (lines 14-32): the shared converter body
applied to the MOBI extraction. -/
def mobi_convert (env : MobiEnv) (writeOk : Bool) : ConvFun :=
  converter_convert (PyResult.ok (mobi_extract_text env)) writeOk

/-! ### Concrete fixtures for witnesses and counterexamples -/

/-- A processor configuration with overwrite_existing off. -/
def cfgA : BPConfig := ⟨"in", "out", true, true, false⟩

/-- The same configuration with overwrite_existing on. -/
def cfgOw : BPConfig := ⟨"in", "out", true, true, true⟩

/-- A one-file input tree. -/
def walkA : List String := ["a.pdf"]

/-- A filesystem holding the one input file and both roots. -/
def fsA : FS := ⟨[("in/a.pdf", "rawpdf")], ["in", "out"]⟩

/-- A filesystem with two input files where one output already exists. -/
def fsExist : FS :=
  ⟨[("in/a.pdf", "x"), ("in/b.pdf", "y"), ("out/b.txt", "old")], ["in", "out"]⟩

/-- Per-task behaviour where extraction succeeds and the write succeeds. -/
def envGood : String → TaskEnv :=
  fun _ => ⟨PyResult.ok (), PyResult.ok "Hello", true⟩

/-- Per-task behaviour where extraction raises. -/
def envRaise : String → TaskEnv :=
  fun _ => ⟨PyResult.ok (), PyResult.exn ⟨"ValueError", "bad file"⟩, true⟩

/-- envRaise perturbed at an input path outside the batch. -/
def envRaise2 : String → TaskEnv :=
  fun p => if p = "other.docx" then ⟨PyResult.ok (), PyResult.ok "x", true⟩ else envRaise p

/-- Filesystem fixture for the C9 witness. -/
def fsMobi : FS := ⟨[("in/a.mobi", "bytes")], ["in", "out"]⟩

/-- MOBI environment whose primary extraction raises and whose raw read
decodes to non-empty text. -/
def mobiEnvW : MobiEnv :=
  ⟨PyResult.exn ⟨"UnpackException", "not mobi"⟩, PyResult.ok "garbled text"⟩

/-- Filesystem extension order: everything present stays present. -/
def fsLE (a b : FS) : Prop :=
  (∀ x ∈ a.files, x ∈ b.files) ∧ (∀ d ∈ a.dirs, d ∈ b.dirs)

/-! ### Helper lemmas -/

/-- An append whose left part is non-empty is non-empty. -/
theorem append_ne_empty_left (a b : String) (h : a ≠ "") : a ++ b ≠ "" := by
  intro hab
  apply h
  apply String.ext
  have hd : a.data ++ b.data = [] := by
    have h2 := congrArg String.data hab
    simpa using h2
  exact (List.append_eq_nil.mp hd).1

/-- An append whose right part is non-empty is non-empty. -/
theorem append_ne_empty_right (a b : String) (h : b ≠ "") : a ++ b ≠ "" := by
  intro hab
  apply h
  apply String.ext
  have hd : a.data ++ b.data = [] := by
    have h2 := congrArg String.data hab
    simpa using h2
  exact (List.append_eq_nil.mp hd).2

/-- Exception messages rendered by excMessage are never empty. -/
theorem excMessage_ne_empty (e : PyExn) : excMessage e ≠ "" := by
  unfold excMessage
  exact append_ne_empty_left _ _ (append_ne_empty_right _ _ (by decide))

theorem fsLE_refl (fs : FS) : fsLE fs fs :=
  ⟨fun _ h => h, fun _ h => h⟩

theorem fsLE_trans {a b c : FS} (h1 : fsLE a b) (h2 : fsLE b c) : fsLE a c :=
  ⟨fun x hx => h2.1 x (h1.1 x hx), fun d hd => h2.2 d (h1.2 d hd)⟩

theorem fsLE_mkdirParent (out : String) (fs : FS) : fsLE fs (mkdirParent out fs) :=
  ⟨fun _ h => h, fun _ hd => List.mem_cons_of_mem _ hd⟩

theorem fsLE_fsWrite (fs : FS) (out text : String) : fsLE fs (fsWrite fs out text) :=
  ⟨fun _ hx => List.mem_cons_of_mem _ hx, fun _ hd => List.mem_cons_of_mem _ hd⟩

/-- File existence is monotone along filesystem extension. -/
theorem fsFileExists_mono {a b : FS} (h : fsLE a b) {p : String}
    (hp : fsFileExists a p = true) : fsFileExists b p = true := by
  unfold fsFileExists at hp ⊢
  rcases List.any_eq_true.mp hp with ⟨x, hx, hxp⟩
  exact List.any_eq_true.mpr ⟨x, h.1 x hx, hxp⟩

/-- Path existence is monotone along filesystem extension. -/
theorem fsExists_mono {a b : FS} (h : fsLE a b) {p : String}
    (hp : fsExists a p = true) : fsExists b p = true := by
  unfold fsExists at hp ⊢
  rcases Bool.or_eq_true_iff.mp hp with hf | hd
  · exact Bool.or_eq_true_iff.mpr (Or.inl (fsFileExists_mono h hf))
  · refine Bool.or_eq_true_iff.mpr (Or.inr ?_)
    have hm : p ∈ a.dirs := by simpa using hd
    simpa using h.2 p hm

/-- A written file exists afterwards. -/
theorem fsWrite_exists (fs : FS) (out text : String) :
    fsFileExists (fsWrite fs out text) out = true := by
  unfold fsFileExists fsWrite
  exact List.any_eq_true.mpr ⟨(out, text), List.mem_cons_self _ _, by simp⟩

/-- The shared converter body only extends the filesystem. -/
theorem converter_convert_fsLE (er : PyResult String) (w : Bool)
    (inp out : String) (fs : FS) : fsLE fs ((converter_convert er w) inp out fs).2 := by
  unfold converter_convert
  cases er with
  | exn e => exact fsLE_refl fs
  | ok text =>
    by_cases ht : text = ""
    · simp [ht]; exact fsLE_refl fs
    · cases w with
      | true => simp [ht]; exact fsLE_fsWrite fs out text
      | false => simp [ht]; exact fsLE_refl fs

/-- safe_convert only extends the filesystem when its converter does. -/
theorem safe_convert_fsLE (conv : ConvFun) (inp out : String) (fs : FS)
    (hconv : fsLE fs (conv inp out fs).2) :
    fsLE fs (safe_convert conv inp out fs).2 := by
  unfold safe_convert
  by_cases hv : validate_input fs inp = false
  · simp [hv]; exact fsLE_refl fs
  · simp [hv]
    rcases hc : conv inp out fs with ⟨pr, fs2⟩
    have hfs2 : fsLE fs fs2 := by rw [hc] at hconv; exact hconv
    cases pr with
    | ok b => cases b <;> simpa using hfs2
    | exn e => simpa using hfs2

/-- convert_single only extends the filesystem. -/
theorem convert_single_fsLE (env : TaskEnv) (inp out : String) (fs : FS) :
    fsLE fs (convert_single env inp out fs).2 := by
  cases hg : get_converter inp with
  | none => simp only [convert_single, hg]; exact fsLE_refl fs
  | some k =>
    cases hm : env.mkdirOutcome with
    | exn e => simp only [convert_single, hg, hm]; exact fsLE_refl fs
    | ok u =>
      have h1 : fsLE fs (mkdirParent out fs) := fsLE_mkdirParent out fs
      have h2 : fsLE (mkdirParent out fs)
          (safe_convert (converter_convert env.extract env.writeOk) inp out (mkdirParent out fs)).2 :=
        safe_convert_fsLE _ inp out _ (converter_convert_fsLE env.extract env.writeOk inp out _)
      have h3 := fsLE_trans h1 h2
      rcases hs : safe_convert (converter_convert env.extract env.writeOk) inp out (mkdirParent out fs)
        with ⟨⟨b, err⟩, fs2⟩
      rw [hs] at h3
      simp only [convert_single, hg, hm, hs]
      cases b <;> simpa using h3

/-- process_batch only extends the filesystem. -/
theorem process_batch_fsLE (env : String → TaskEnv) (docs : List DocTask) (fs : FS) :
    fsLE fs (process_batch env docs fs).2 := by
  induction docs generalizing fs with
  | nil => exact fsLE_refl fs
  | cons d rest ih =>
    rcases d with ⟨inp, out⟩
    simp only [process_batch]
    exact fsLE_trans (convert_single_fsLE (env inp) inp out fs)
      (ih (convert_single (env inp) inp out fs).2)

/-- Normal form of safe_convert applied to the shared converter body. -/
theorem safe_convert_pattern (er : PyResult String) (w : Bool) (inp out : String) (fs : FS) :
    safe_convert (converter_convert er w) inp out fs =
      if validate_input fs inp = false then ((false, some "Invalid input file"), fs)
      else
        match er with
        | PyResult.exn _ => ((false, some "Conversion failed"), fs)
        | PyResult.ok text =>
          if text = "" then ((false, some "Conversion failed"), fs)
          else if w then ((true, none), fsWrite fs out text)
          else ((false, some "Conversion failed"), fs) := by
  unfold safe_convert converter_convert
  by_cases hv : validate_input fs inp = false
  · simp [hv]
  · simp only [hv, if_false]
    cases er with
    | exn e => simp
    | ok text =>
      by_cases ht : text = ""
      · simp [ht]
      · cases w <;> simp [ht]

/-- Normal form of _convert_single: the full branch tree of one task. -/
theorem convert_single_eq (env : TaskEnv) (inp out : String) (fs : FS) :
    convert_single env inp out fs =
      match get_converter inp with
      | none => (⟨inp, out, false, some ("No converter found for " ++ inp)⟩, fs)
      | some _ =>
        match env.mkdirOutcome with
        | PyResult.exn e => (⟨inp, out, false, some (excMessage e)⟩, fs)
        | PyResult.ok _ =>
          let fs1 := mkdirParent out fs
          if validate_input fs1 inp = false then
            (⟨inp, out, false, some "Invalid input file"⟩, fs1)
          else
            match env.extract with
            | PyResult.exn _ => (⟨inp, out, false, some "Conversion failed"⟩, fs1)
            | PyResult.ok text =>
              if text = "" then (⟨inp, out, false, some "Conversion failed"⟩, fs1)
              else if env.writeOk then (⟨inp, out, true, none⟩, fsWrite fs1 out text)
              else (⟨inp, out, false, some "Conversion failed"⟩, fs1) := by
  cases hg : get_converter inp with
  | none => simp [convert_single, hg]
  | some k =>
    cases hm : env.mkdirOutcome with
    | exn e => simp [convert_single, hg, hm]
    | ok u =>
      simp only [convert_single, hg, hm]
      rw [safe_convert_pattern]
      by_cases hv : validate_input (mkdirParent out fs) inp = false
      · simp [hv]
      · simp only [hv, if_false]
        cases he : env.extract with
        | exn e => simp
        | ok text =>
          by_cases ht : text = ""
          · simp [ht]
          · cases hw : env.writeOk <;> simp [ht]

/-- A task reported successful has its output file written. -/
theorem convert_single_success_written (env : TaskEnv) (inp out : String) (fs : FS)
    (h : (convert_single env inp out fs).1.success = true) :
    fsFileExists (convert_single env inp out fs).2 out = true := by
  cases hg : get_converter inp with
  | none => simp [convert_single_eq, hg] at h
  | some k =>
    cases hm : env.mkdirOutcome with
    | exn e => simp [convert_single_eq, hg, hm] at h
    | ok u =>
      by_cases hv : validate_input (mkdirParent out fs) inp = false
      · simp [convert_single_eq, hg, hm, hv] at h
      · cases he : env.extract with
        | exn e => simp [convert_single_eq, hg, hm, hv, he] at h
        | ok text =>
          by_cases ht : text = ""
          · simp [convert_single_eq, hg, hm, hv, he, ht] at h
          · cases hw : env.writeOk with
            | false => simp [convert_single_eq, hg, hm, hv, he, ht, hw] at h
            | true => simp [convert_single_eq, hg, hm, hv, he, ht, hw, fsWrite_exists]

/-- Result invariant of one task: success carries no error; failure
carries a non-empty error message. -/
theorem convert_single_invariant (env : TaskEnv) (inp out : String) (fs : FS) :
    ((convert_single env inp out fs).1.success = true →
      (convert_single env inp out fs).1.error = none) ∧
    ((convert_single env inp out fs).1.success = false →
      ∃ m, (convert_single env inp out fs).1.error = some m ∧ m ≠ "") := by
  rw [convert_single_eq]
  cases hg : get_converter inp with
  | none =>
    refine ⟨by simp, fun _ => ⟨"No converter found for " ++ inp, by simp, ?_⟩⟩
    exact append_ne_empty_left _ _ (by decide)
  | some k =>
    cases hm : env.mkdirOutcome with
    | exn e =>
      exact ⟨by simp, fun _ => ⟨excMessage e, by simp, excMessage_ne_empty e⟩⟩
    | ok u =>
      by_cases hv : validate_input (mkdirParent out fs) inp = false
      · simp only [hv, if_true]
        exact ⟨by simp, fun _ => ⟨"Invalid input file", by simp, by decide⟩⟩
      · simp only [hv, if_false]
        cases he : env.extract with
        | exn e =>
          exact ⟨by simp, fun _ => ⟨"Conversion failed", by simp, by decide⟩⟩
        | ok text =>
          by_cases ht : text = ""
          · simp only [ht, if_pos rfl]
            exact ⟨by simp, fun _ => ⟨"Conversion failed", by simp, by decide⟩⟩
          · cases hw : env.writeOk with
            | true => simp [ht, hw]
            | false =>
              simp only [ht, hw, if_neg ht, if_false]
              exact ⟨by simp, fun _ => ⟨"Conversion failed", by simp, by decide⟩⟩

/-- Unfolding equation of process_batch on a cons cell. -/
theorem process_batch_cons (env : String → TaskEnv) (inp out : String)
    (rest : List DocTask) (fs : FS) :
    process_batch env ((inp, out) :: rest) fs =
      ((convert_single (env inp) inp out fs).1 ::
        (process_batch env rest (convert_single (env inp) inp out fs).2).1,
       (process_batch env rest (convert_single (env inp) inp out fs).2).2) := rfl

/-- One result per submitted task. -/
theorem process_batch_length (env : String → TaskEnv) (docs : List DocTask) (fs : FS) :
    (process_batch env docs fs).1.length = docs.length := by
  induction docs generalizing fs with
  | nil => rfl
  | cons d rest ih =>
    rcases d with ⟨inp, out⟩
    rw [process_batch_cons]
    simp [ih]

/-- When every result of a batch is successful, the output of every
submitted task exists in the final filesystem. -/
theorem process_batch_written (env : String → TaskEnv) (docs : List DocTask) (fs : FS)
    (inp out : String) (hmem : (inp, out) ∈ docs)
    (hall : ∀ r ∈ (process_batch env docs fs).1, r.success = true) :
    fsFileExists (process_batch env docs fs).2 out = true := by
  induction docs generalizing fs with
  | nil => cases hmem
  | cons d rest ih =>
    rcases d with ⟨i2, o2⟩
    rw [process_batch_cons] at hall ⊢
    rcases List.mem_cons.mp hmem with heq | htail
    · have hi : inp = i2 := congrArg Prod.fst heq
      have ho : out = o2 := congrArg Prod.snd heq
      subst hi; subst ho
      have hr : (convert_single (env inp) inp out fs).1.success = true :=
        hall _ (List.mem_cons_self _ _)
      have hw := convert_single_success_written (env inp) inp out fs hr
      exact fsFileExists_mono (process_batch_fsLE env rest _) hw
    · exact ih _ htail (fun r hr => hall r (List.mem_cons_of_mem _ hr))

/-- With an existing input root, discovery returns the loop's tasks. -/
theorem discover_documents_true (cfg : BPConfig) (walk : List String) (fs : FS) :
    (discover_documents cfg true walk fs).1 = (discoverLoop cfg fs walk).1 := by
  simp [discover_documents]

/-- Without overwrite, no emitted task has an existing output. -/
theorem discoverLoop_mem_not_exists (cfg : BPConfig) (fs : FS) (walk : List String)
    (how : cfg.overwrite_existing = false) :
    ∀ t ∈ (discoverLoop cfg fs walk).1, fsExists fs t.2 = false := by
  induction walk with
  | nil => intro t ht; simp [discoverLoop] at ht
  | cons rel rest ih =>
    intro t ht
    by_cases hsup : is_supported (mkInputPath cfg rel) = false
    · rw [show (discoverLoop cfg fs (rel :: rest)).1 = (discoverLoop cfg fs rest).1 by
        simp [discoverLoop, hsup]] at ht
      exact ih t ht
    · by_cases hex : fsExists fs (mkOutputPath cfg rel) = true
      · rw [show (discoverLoop cfg fs (rel :: rest)).1 = (discoverLoop cfg fs rest).1 by
          simp [discoverLoop, hsup, hex, how]] at ht
        exact ih t ht
      · rw [show (discoverLoop cfg fs (rel :: rest)).1 =
            (mkInputPath cfg rel, mkOutputPath cfg rel) :: (discoverLoop cfg fs rest).1 by
          simp [discoverLoop, hsup, hex]] at ht
        rcases List.mem_cons.mp ht with heq | htail
        · subst heq
          exact Bool.not_eq_true _ ▸ (Bool.eq_false_iff.mpr (fun hc => hex hc))
        · exact ih t htail

/-- With overwrite, every supported walked file is emitted. -/
theorem discoverLoop_mem_of_overwrite (cfg : BPConfig) (fs : FS) (walk : List String)
    (how : cfg.overwrite_existing = true) :
    ∀ rel ∈ walk, is_supported (mkInputPath cfg rel) = true →
      (mkInputPath cfg rel, mkOutputPath cfg rel) ∈ (discoverLoop cfg fs walk).1 := by
  induction walk with
  | nil => intro rel h; cases h
  | cons r0 rest ih =>
    intro rel hrel hsup
    rcases List.mem_cons.mp hrel with heq | htail
    · subst heq
      rw [show (discoverLoop cfg fs (rel :: rest)).1 =
          (mkInputPath cfg rel, mkOutputPath cfg rel) :: (discoverLoop cfg fs rest).1 by
        simp [discoverLoop, hsup, how]]
      exact List.mem_cons_self _ _
    · by_cases hsup0 : is_supported (mkInputPath cfg r0) = false
      · rw [show (discoverLoop cfg fs (r0 :: rest)).1 = (discoverLoop cfg fs rest).1 by
          simp [discoverLoop, hsup0]]
        exact ih rel htail hsup
      · rw [show (discoverLoop cfg fs (r0 :: rest)).1 =
            (mkInputPath cfg r0, mkOutputPath cfg r0) :: (discoverLoop cfg fs rest).1 by
          simp [discoverLoop, hsup0, how]]
        exact List.mem_cons_of_mem _ (ih rel htail hsup)

/-- Every supported walked file either already had its output on disk
or is emitted by the discovery loop. -/
theorem discoverLoop_coverage (cfg : BPConfig) (fs : FS) (walk : List String) :
    ∀ rel ∈ walk, is_supported (mkInputPath cfg rel) = true →
      fsExists fs (mkOutputPath cfg rel) = true ∨
      (mkInputPath cfg rel, mkOutputPath cfg rel) ∈ (discoverLoop cfg fs walk).1 := by
  induction walk with
  | nil => intro rel h; cases h
  | cons r0 rest ih =>
    intro rel hrel hsup
    rcases List.mem_cons.mp hrel with heq | htail
    · subst heq
      by_cases hskip : fsExists fs (mkOutputPath cfg rel) = true ∧ cfg.overwrite_existing = false
      · exact Or.inl hskip.1
      · refine Or.inr ?_
        rw [show (discoverLoop cfg fs (rel :: rest)).1 =
            (mkInputPath cfg rel, mkOutputPath cfg rel) :: (discoverLoop cfg fs rest).1 by
          simp only [discoverLoop, hsup]
          simp [hskip]]
        exact List.mem_cons_self _ _
    · rcases ih rel htail hsup with hex | hmem
      · exact Or.inl hex
      · refine Or.inr ?_
        by_cases hsup0 : is_supported (mkInputPath cfg r0) = false
        · rw [show (discoverLoop cfg fs (r0 :: rest)).1 = (discoverLoop cfg fs rest).1 by
            simp [discoverLoop, hsup0]]
          exact hmem
        · by_cases hskip : fsExists fs (mkOutputPath cfg r0) = true ∧ cfg.overwrite_existing = false
          · rw [show (discoverLoop cfg fs (r0 :: rest)).1 = (discoverLoop cfg fs rest).1 by
              simp only [discoverLoop, hsup0]
              simp [hskip]]
            exact hmem
          · rw [show (discoverLoop cfg fs (r0 :: rest)).1 =
                (mkInputPath cfg r0, mkOutputPath cfg r0) :: (discoverLoop cfg fs rest).1 by
              simp only [discoverLoop, hsup0]
              simp [hskip]]
            exact List.mem_cons_of_mem _ hmem

/-- When overwrite is off and every supported walked file already has
its output on disk, the discovery loop emits nothing. -/
theorem discoverLoop_nil_of_all_exist (cfg : BPConfig) (fs : FS) (walk : List String)
    (how : cfg.overwrite_existing = false)
    (hall : ∀ rel ∈ walk, is_supported (mkInputPath cfg rel) = true →
            fsExists fs (mkOutputPath cfg rel) = true) :
    (discoverLoop cfg fs walk).1 = [] := by
  induction walk with
  | nil => simp [discoverLoop]
  | cons rel rest ih =>
    have ihrest := ih (fun r hr hs => hall r (List.mem_cons_of_mem _ hr) hs)
    by_cases hsup : is_supported (mkInputPath cfg rel) = false
    · rw [show (discoverLoop cfg fs (rel :: rest)).1 = (discoverLoop cfg fs rest).1 by
        simp [discoverLoop, hsup]]
      exact ihrest
    · have hs : is_supported (mkInputPath cfg rel) = true := by
        cases h : is_supported (mkInputPath cfg rel)
        · exact absurd h hsup
        · rfl
      have hex := hall rel (List.mem_cons_self _ _) hs
      rw [show (discoverLoop cfg fs (rel :: rest)).1 = (discoverLoop cfg fs rest).1 by
        simp [discoverLoop, hsup, hex, how]]
      exact ihrest

/-! ### Claims -/

/-- C1: result-count conservation: for every list of N discovered tasks,
process_batch returns exactly N ConversionResults — one per submitted
task — regardless of how many tasks fail and of any exception inside a
converter (the TaskEnv oracle ranges over all outcomes, raising ones
included). -/
theorem thm_c1_result_count_conservation (env : String → TaskEnv)
    (docs : List DocTask) (fs : FS) :
    (process_batch env docs fs).1.length = docs.length :=
  process_batch_length env docs fs

/-- C2: failure isolation.  (1) An exception raised by a converter's
convert is caught in safe_convert and becomes (False, "Name: msg").
(2) An exception raised by the output-directory mkdir is caught at the
_convert_single boundary and becomes a failed ConversionResult.
(3) An exception raised during extraction is caught (inside the
converter body) and surfaces as a failed ConversionResult with error
"Conversion failed".  (4) A task's result depends only on its own
task environment, so no failing task can abort or alter sibling tasks
or the pool: batches under environments that agree on the batch's own
inputs are identical. -/
theorem thm_c2_failure_isolation :
    (∀ (conv : ConvFun) (inp out : String) (fs fs2 : FS) (e : PyExn),
      validate_input fs inp = true →
      conv inp out fs = (PyResult.exn e, fs2) →
      safe_convert conv inp out fs = ((false, some (excMessage e)), fs2))
    ∧ (∀ (env : TaskEnv) (inp out : String) (fs : FS) (e : PyExn),
        get_converter inp ≠ none →
        env.mkdirOutcome = PyResult.exn e →
        (convert_single env inp out fs).1 = ⟨inp, out, false, some (excMessage e)⟩)
    ∧ (∀ (env : TaskEnv) (inp out : String) (fs : FS) (e : PyExn),
        get_converter inp ≠ none →
        env.mkdirOutcome = PyResult.ok () →
        env.extract = PyResult.exn e →
        validate_input (mkdirParent out fs) inp = true →
        (convert_single env inp out fs).1 = ⟨inp, out, false, some "Conversion failed"⟩)
    ∧ (∀ (env env2 : String → TaskEnv) (docs : List DocTask) (fs : FS),
        (∀ d ∈ docs, env d.1 = env2 d.1) →
        process_batch env docs fs = process_batch env2 docs fs) := by
  refine ⟨?_, ?_, ?_, ?_⟩
  · intro conv inp out fs fs2 e hv hc
    unfold safe_convert
    rw [hc]
    simp [hv]
  · intro env inp out fs e hg hm
    rcases hk : get_converter inp with _ | k
    · exact absurd hk hg
    · simp [convert_single, hk, hm]
  · intro env inp out fs e hg hm he hv
    rcases hk : get_converter inp with _ | k
    · exact absurd hk hg
    · simp [convert_single_eq, hk, hm, he, hv]
  · intro env env2 docs fs hagree
    induction docs generalizing fs with
    | nil => rfl
    | cons d rest ih =>
      rcases d with ⟨inp, out⟩
      have hd : env inp = env2 inp := hagree (inp, out) (List.mem_cons_self _ _)
      rw [process_batch_cons, process_batch_cons, hd,
        ih ((convert_single (env2 inp) inp out fs).2)
          (fun d hdm => hagree d (List.mem_cons_of_mem _ hdm))]

/-- C2 witness: concrete instances of all four parts of the failure
isolation theorem. -/
theorem thm_c2_witness :
    safe_convert (fun _ _ fs => (PyResult.exn ⟨"RuntimeError", "boom"⟩, fs))
        "in/a.pdf" "out/a.txt" fsA
      = ((false, some (excMessage ⟨"RuntimeError", "boom"⟩)), fsA)
    ∧ (convert_single ⟨PyResult.exn ⟨"OSError", "denied"⟩, PyResult.ok "t", true⟩
        "in/a.pdf" "out/a.txt" fsA).1
      = ⟨"in/a.pdf", "out/a.txt", false, some (excMessage ⟨"OSError", "denied"⟩)⟩
    ∧ (convert_single ⟨PyResult.ok (), PyResult.exn ⟨"ValueError", "bad file"⟩, true⟩
        "in/a.pdf" "out/a.txt" fsA).1
      = ⟨"in/a.pdf", "out/a.txt", false, some "Conversion failed"⟩
    ∧ process_batch envRaise [("in/a.pdf", "out/a.txt")] fsA
      = process_batch envRaise2 [("in/a.pdf", "out/a.txt")] fsA :=
  ⟨thm_c2_failure_isolation.1 _ "in/a.pdf" "out/a.txt" fsA fsA
      ⟨"RuntimeError", "boom"⟩ (by decide) rfl,
   thm_c2_failure_isolation.2.1 _ "in/a.pdf" "out/a.txt" fsA
      ⟨"OSError", "denied"⟩ (by decide) rfl,
   thm_c2_failure_isolation.2.2.1 _ "in/a.pdf" "out/a.txt" fsA
      ⟨"ValueError", "bad file"⟩ (by decide) rfl rfl (by decide),
   thm_c2_failure_isolation.2.2.2 envRaise envRaise2 [("in/a.pdf", "out/a.txt")] fsA
      (by decide)⟩

/-- C3 counterexample: the claim says every configured concurrency value
yields an effective pool size in [1,10], values below 1 being clamped up
to 1.  Configured value 0 refutes it: BatchProcessor.__init__ computes
min(0, 10) = 0, below the interval, and Config._validate_config does not
clamp either — it rejects 0 with a ValueError. -/
theorem thm_c3_counterexample :
    batch_processor_batch_size 0 = 0
    ∧ ¬(1 ≤ batch_processor_batch_size 0)
    ∧ validate_config 0 10 = Except.error "batch_size must be between 1 and 50" := by
  refine ⟨rfl, by decide, ?_⟩
  unfold validate_config
  rw [if_pos (Or.inl (by norm_num))]

/-- C3 amended: the cap is one-sided.  The effective worker-pool size is
min(configured, 10), so every configured value of at least 1 lands in
[1,10], and configuring 25 behaves identically to configuring 10;
values below 1 are not clamped up — Config validation instead rejects
every batch_size outside [1,50] with a ValueError. -/
theorem thm_c3_amended :
    (∀ b : Int, 1 ≤ b →
      1 ≤ batch_processor_batch_size b ∧ batch_processor_batch_size b ≤ 10)
    ∧ batch_processor_batch_size 25 = batch_processor_batch_size 10
    ∧ (∀ (b : Int) (m : Rat), b < 1 ∨ b > 50 →
        validate_config b m = Except.error "batch_size must be between 1 and 50") := by
  refine ⟨fun b hb => ⟨le_min hb (by norm_num), min_le_right _ _⟩, by decide, ?_⟩
  intro b m h
  unfold validate_config
  rw [if_pos h]

/-- C3 amended witness: concrete instances at configured values 25 and 0. -/
theorem thm_c3_amended_witness :
    (1 ≤ batch_processor_batch_size 25 ∧ batch_processor_batch_size 25 ≤ 10)
    ∧ batch_processor_batch_size 25 = batch_processor_batch_size 10
    ∧ validate_config 0 10 = Except.error "batch_size must be between 1 and 50" :=
  ⟨thm_c3_amended.1 25 (by decide), thm_c3_amended.2.1,
   thm_c3_amended.2.2 0 10 (Or.inl (by norm_num))⟩

/-- C4: when the input root does not exist, discovery fails fast: it
returns the empty task list together with the input-root-missing error
event instead of throwing, and process_all attempts no task and leaves
the filesystem untouched. -/
theorem thm_c4_missing_root_fails_fast (cfg : BPConfig) (walk : List String)
    (env : String → TaskEnv) (fs : FS) :
    discover_documents cfg false walk fs
      = ([], [LogEvent.error ("Input folder does not exist: " ++ cfg.input_folder)])
    ∧ process_all cfg false walk env fs = (([], []), fs) := by
  constructor
  · simp [discover_documents]
  · simp [process_all, discover_documents]

/-- C5: overwrite policy of discovery.  With overwrite_existing off,
discovery never emits a task whose computed output path already exists
(such files are skipped, not errored); with overwrite_existing on,
every supported file under the input root is emitted. -/
theorem thm_c5_overwrite_policy (cfg : BPConfig) (walk : List String) (fs : FS) :
    (cfg.overwrite_existing = false →
      ∀ t ∈ (discover_documents cfg true walk fs).1, fsExists fs t.2 = false)
    ∧ (cfg.overwrite_existing = true →
      ∀ rel ∈ walk, is_supported (mkInputPath cfg rel) = true →
        (mkInputPath cfg rel, mkOutputPath cfg rel)
          ∈ (discover_documents cfg true walk fs).1) := by
  constructor
  · intro how t ht
    rw [discover_documents_true] at ht
    exact discoverLoop_mem_not_exists cfg fs walk how t ht
  · intro how rel hrel hsup
    rw [discover_documents_true]
    exact discoverLoop_mem_of_overwrite cfg fs walk how rel hrel hsup

/-- C5 witness: with overwrite off, the discovered tasks over a tree
whose b output already exists all have fresh outputs; with overwrite on,
the a task is emitted even though its output exists. -/
theorem thm_c5_witness :
    (∀ t ∈ (discover_documents cfgA true ["a.pdf", "b.pdf"] fsExist).1,
      fsExists fsExist t.2 = false)
    ∧ (mkInputPath cfgOw "b.pdf", mkOutputPath cfgOw "b.pdf")
        ∈ (discover_documents cfgOw true ["a.pdf", "b.pdf"] fsExist).1 :=
  ⟨(thm_c5_overwrite_policy cfgA ["a.pdf", "b.pdf"] fsExist).1 rfl,
   (thm_c5_overwrite_policy cfgOw ["a.pdf", "b.pdf"] fsExist).2 rfl "b.pdf"
      (by decide) (by decide)⟩

/-- C6 counterexample: one discovered file whose extraction raises.  The
first run produces only failed results and writes no output, so the
second discovery over the same tree re-emits the task instead of being
empty — refuting the claim that a second run always discovers nothing. -/
theorem thm_c6_counterexample :
    (∀ r ∈ (process_batch envRaise (discover_documents cfgA true walkA fsA).1 fsA).1,
      r.success = false)
    ∧ (discover_documents cfgA true walkA
        (process_batch envRaise (discover_documents cfgA true walkA fsA).1 fsA).2).1
      = [("in/a.pdf", "out/a.txt")] := by
  constructor
  · decide
  · decide

/-- C6 amended: re-running with overwrite_existing off yields an empty
second task list provided every result of the first run succeeded (a
failed task writes no output and is therefore rediscovered). -/
theorem thm_c6_amended_idempotence (cfg : BPConfig) (walk : List String)
    (env : String → TaskEnv) (fs : FS)
    (how : cfg.overwrite_existing = false)
    (hall : ∀ r ∈ (process_batch env (discover_documents cfg true walk fs).1 fs).1,
      r.success = true) :
    (discover_documents cfg true walk
      (process_batch env (discover_documents cfg true walk fs).1 fs).2).1 = [] := by
  simp only [discover_documents_true] at hall ⊢
  apply discoverLoop_nil_of_all_exist cfg _ walk how
  intro rel hrel hsup
  rcases discoverLoop_coverage cfg fs walk rel hrel hsup with hex | hmem
  · exact fsExists_mono (process_batch_fsLE env _ fs) hex
  · have hw := process_batch_written env _ fs _ _ hmem hall
    unfold fsExists
    exact Bool.or_eq_true_iff.mpr (Or.inl hw)

/-- C6 amended witness: a fully successful one-file run leaves nothing
for the second discovery. -/
theorem thm_c6_amended_witness :
    (discover_documents cfgA true walkA
      (process_batch envGood (discover_documents cfgA true walkA fsA).1 fsA).2).1 = [] :=
  thm_c6_amended_idempotence cfgA walkA envGood fsA rfl (by decide)

/-- C7: on an empty result set the report shows the literal N/A in place
of the success rate — the guarded branch performs no division — and
building the report lines of the empty partition is a total computation
yielding exactly these lines. -/
theorem thm_c7_empty_report_na :
    report_lines [] [] =
      ["\n" ++ eq60, "CONVERSION REPORT", eq60,
       "Total documents: 0", "Successful: 0", "Failed: 0", "N/A", eq60, eq60 ++ "\n"]
    ∧ success_rate_line 0 0 = "N/A" := by
  exact ⟨rfl, rfl⟩

/-- C8: a task with no registered converter for its extension yields a
failed ConversionResult with the no-converter message and leaves the
filesystem exactly as it was — no parent directory is created and no
file written; a batch of such tasks leaves the filesystem untouched
while still producing one result per task, so the run is not aborted. -/
theorem thm_c8_unsupported_no_fs_touch :
    (∀ (env : TaskEnv) (inp out : String) (fs : FS),
      get_converter inp = none →
      convert_single env inp out fs
        = (⟨inp, out, false, some ("No converter found for " ++ inp)⟩, fs))
    ∧ (∀ (env : String → TaskEnv) (docs : List DocTask) (fs : FS),
        (∀ d ∈ docs, get_converter d.1 = none) →
        (process_batch env docs fs).2 = fs
        ∧ (process_batch env docs fs).1.length = docs.length) := by
  have h1 : ∀ (env : TaskEnv) (inp out : String) (fs : FS),
      get_converter inp = none →
      convert_single env inp out fs
        = (⟨inp, out, false, some ("No converter found for " ++ inp)⟩, fs) := by
    intro env inp out fs hg
    simp [convert_single, hg]
  refine ⟨h1, ?_⟩
  intro env docs fs hall
  induction docs generalizing fs with
  | nil => exact ⟨rfl, rfl⟩
  | cons d rest ih =>
    rcases d with ⟨inp, out⟩
    have hg : get_converter inp = none := hall (inp, out) (List.mem_cons_self _ _)
    have hrest := ih fs (fun d hd => hall d (List.mem_cons_of_mem _ hd))
    rw [process_batch_cons, h1 (env inp) inp out fs hg]
    constructor
    · exact hrest.1
    · simp [hrest.2]

/-- C8 witness: an unsupported .xyz task leaves the filesystem unchanged
and still yields its one failed result. -/
theorem thm_c8_witness :
    convert_single (envGood "in/b.xyz") "in/b.xyz" "out/b.txt" fsA
      = (⟨"in/b.xyz", "out/b.txt", false, some ("No converter found for " ++ "in/b.xyz")⟩, fsA)
    ∧ ((process_batch envGood [("in/b.xyz", "out/b.txt")] fsA).2 = fsA
       ∧ (process_batch envGood [("in/b.xyz", "out/b.txt")] fsA).1.length
           = [(("in/b.xyz" : String), ("out/b.txt" : String))].length) :=
  ⟨thm_c8_unsupported_no_fs_touch.1 (envGood "in/b.xyz") "in/b.xyz" "out/b.txt" fsA (by decide),
   thm_c8_unsupported_no_fs_touch.2 envGood [("in/b.xyz", "out/b.txt")] fsA (by decide)⟩

/-- C9: MOBI fallback.  When the primary extraction pipeline raises, the
converter silently falls back to the UTF-8 ignore-errors decode of the
raw input bytes; when that text is non-empty and the write succeeds,
safe_convert reports (True, None) and the decoded text is written — an
outcome identical to a primary extraction producing the same text, with
no distinct error subtype and no degraded marker. -/
theorem thm_c9_mobi_fallback (env : MobiEnv) (inp out : String) (fs : FS)
    (e : PyExn) (s : String)
    (hp : env.primary = PyResult.exn e) (hr : env.rawRead = PyResult.ok s)
    (hs : s ≠ "") (hv : validate_input fs inp = true) :
    safe_convert (mobi_convert env true) inp out fs = ((true, none), fsWrite fs out s)
    ∧ safe_convert (mobi_convert ⟨PyResult.ok s, env.rawRead⟩ true) inp out fs
      = safe_convert (mobi_convert env true) inp out fs := by
  have hx : mobi_extract_text env = s := by
    simp [mobi_extract_text, hp, hr]
  constructor
  · unfold mobi_convert
    rw [safe_convert_pattern]
    simp [hv, hx, hs]
  · unfold mobi_convert
    rw [safe_convert_pattern, safe_convert_pattern]
    simp [mobi_extract_text, hp, hr, hv, hs]

/-- C9 witness: the concrete fallback conversion succeeds, writes the
decoded bytes, and is indistinguishable from a primary success. -/
theorem thm_c9_witness :
    safe_convert (mobi_convert mobiEnvW true) "in/a.mobi" "out/a.txt" fsMobi
      = ((true, none), fsWrite fsMobi "out/a.txt" "garbled text")
    ∧ safe_convert (mobi_convert ⟨PyResult.ok "garbled text", mobiEnvW.rawRead⟩ true)
        "in/a.mobi" "out/a.txt" fsMobi
      = safe_convert (mobi_convert mobiEnvW true) "in/a.mobi" "out/a.txt" fsMobi :=
  thm_c9_mobi_fallback mobiEnvW "in/a.mobi" "out/a.txt" fsMobi
    ⟨"UnpackException", "not mobi"⟩ "garbled text" rfl rfl (by decide) (by decide)

/-- C10: invariant of every ConversionResult produced by the batch:
success carries no error message, and failure carries a non-empty one,
so every failed entry has a printable cause and no successful entry
carries one. -/
theorem thm_c10_result_error_invariant (env : String → TaskEnv)
    (docs : List DocTask) (fs : FS) :
    ∀ r ∈ (process_batch env docs fs).1,
      (r.success = true → r.error = none)
      ∧ (r.success = false → ∃ m, r.error = some m ∧ m ≠ "") := by
  induction docs generalizing fs with
  | nil => intro r hr; simp [process_batch] at hr
  | cons d rest ih =>
    rcases d with ⟨inp, out⟩
    intro r hr
    rw [process_batch_cons] at hr
    rcases List.mem_cons.mp hr with heq | htail
    · subst heq
      exact convert_single_invariant (env inp) inp out fs
    · exact ih _ r htail

/-- C10 witness: the failed result of a concrete raising run carries the
non-empty cause, obtained through the invariant theorem. -/
theorem thm_c10_witness :
    ∃ m, (ConversionResult.mk "in/a.pdf" "out/a.txt" false
      (some "Conversion failed")).error = some m ∧ m ≠ "" :=
  (thm_c10_result_error_invariant envRaise [("in/a.pdf", "out/a.txt")] fsA
    ⟨"in/a.pdf", "out/a.txt", false, some "Conversion failed"⟩ (by decide)).2 rfl
